import Mathlib

/-!
Verification of the rulego rule-engine sources: the node wrapper lifecycle
(engine/node.go), the REST endpoint route table (endpoint rest package) and
the SSH / MQTT client components.  Go maps keyed by strings are embedded as
association lists with first-match lookup and in-place replacement, Go
pointers to mutable records as explicit state passing, and external effects
(network listeners, the component registry, the mqtt broker) as oracle
functions supplied to each operation.
-/

set_option autoImplicit false

namespace RuleGo

/-- Association-list lookup: first entry whose key matches, as a Go map read. -/
def lookupA {α : Type} (k : String) : List (String × α) → Option α
  | [] => none
  | (k2, v) :: rest => if k2 = k then some v else lookupA k rest

/-- Association-list store: replaces the first entry with the given key in
place, appending when the key is absent, as a Go map write. -/
def upsertA {α : Type} (k : String) (v : α) : List (String × α) → List (String × α)
  | [] => [(k, v)]
  | (k2, v2) :: rest => if k2 = k then (k, v) :: rest else (k2, v2) :: upsertA k v rest

theorem lookupA_upsertA {α : Type} (k k2 : String) (v : α) (s : List (String × α)) :
    lookupA k (upsertA k2 v s) = if k = k2 then some v else lookupA k s := by
  induction s with
  | nil =>
    by_cases h : k = k2
    · subst h; simp [upsertA, lookupA]
    · have h2 : ¬ k2 = k := fun hk => h hk.symm
      simp [upsertA, lookupA, h, h2]
  | cons p rest ih =>
    obtain ⟨k3, v3⟩ := p
    by_cases h3 : k3 = k2
    · subst h3
      by_cases h : k = k3
      · subst h; simp [upsertA, lookupA]
      · have h2 : ¬ k3 = k := fun hk => h hk.symm
        simp [upsertA, lookupA, h, h2]
    · by_cases h : k3 = k
      · subst h
        simp [upsertA, h3, lookupA, ih]
      · simp [upsertA, h3, lookupA, h, ih]

theorem keys_upsertA {α : Type} (k : String) (v : α) (s : List (String × α)) :
    (upsertA k v s).map Prod.fst =
      if (lookupA k s).isSome then s.map Prod.fst else s.map Prod.fst ++ [k] := by
  induction s with
  | nil => simp [upsertA, lookupA]
  | cons p rest ih =>
    obtain ⟨k2, v2⟩ := p
    by_cases h : k2 = k
    · subst h; simp [upsertA, lookupA]
    · simp [upsertA, h, lookupA, ih]
      by_cases h2 : (lookupA k rest).isSome <;> simp [h2]

theorem length_upsertA {α : Type} (k : String) (v : α) (s : List (String × α)) :
    (upsertA k v s).length =
      if (lookupA k s).isSome then s.length else s.length + 1 := by
  induction s with
  | nil => simp [upsertA, lookupA]
  | cons p rest ih =>
    obtain ⟨k2, v2⟩ := p
    by_cases h : k2 = k
    · subst h; simp [upsertA, lookupA]
    · simp [upsertA, h, lookupA, ih]
      by_cases h2 : (lookupA k rest).isSome <;> simp [h2]

theorem lookupA_isSome_iff_mem {α : Type} (k : String) (s : List (String × α)) :
    (lookupA k s).isSome = true ↔ k ∈ s.map Prod.fst := by
  induction s with
  | nil => simp [lookupA]
  | cons p rest ih =>
    obtain ⟨k2, v2⟩ := p
    by_cases h : k2 = k
    · subst h; simp [lookupA]
    · have h2 : k ≠ k2 := fun hk => h hk.symm
      simp [lookupA, h, ih, h2]

theorem lookupA_map_value {α β : Type} (k : String) (g : α → β) (s : List (String × α)) :
    lookupA k (s.map (fun p => (p.1, g p.2))) = (lookupA k s).map g := by
  induction s with
  | nil => simp [lookupA]
  | cons p rest ih =>
    obtain ⟨k2, v2⟩ := p
    by_cases h : k2 = k <;> simp [lookupA, h, ih]

/-- String-to-string map, as the Go type map[string]string. -/
def StrMap : Type := List (String × String)

instance : DecidableEq StrMap := by unfold StrMap; infer_instance

/-- Values of the untyped node configuration map (Go types.Configuration maps
strings to the empty interface).  Only the value shapes the engine itself writes or
inspects are distinguished; the stored chain-context pointer is a bare tag and
the stored node definition keeps its scalar fields (its own nested
configuration is never read back by the engine code under verification). -/
inductive CfgValue : Type where
  | str (s : String)
  | boolV (b : Bool)
  | strMap (m : List (String × String))
  | chainRef
  | nodeRef (id typ : String) (debugMode : Bool)
  | other (n : Nat)
deriving DecidableEq

/-- Node configuration: Go types.Configuration. -/
def Configuration : Type := List (String × CfgValue)

instance : DecidableEq Configuration := by unfold Configuration; infer_instance

/-- Declarative node definition: Go types.RuleNode (the fields the engine
code reads; a nil Configuration map is Option.none). -/
structure RuleNode : Type where
  id : String
  typ : String
  debugMode : Bool
  configuration : Option Configuration
deriving DecidableEq

/-- A before-init aspect hook: OnNodeBeforeInit(config, selfDefinition),
returning an error or nil.  Only the node-before-init hooks of
GetEngineAspects are consulted by the code under verification, so an aspect
is embedded as that single hook. -/
def Aspect : Type := RuleNode → Option String

/-- Go types.AspectList, restricted to the hooks the node code consults. -/
def AspectList : Type := List Aspect

/-- Engine configuration: Go types.Config.  The component registry and each
component instance are external collaborators, embedded as oracle functions:
registry resolves a type name to a component handle (a Nat) or a construction
error, and nodeInit is the Init method of the resolved component returning an
error or nil. -/
structure Config : Type where
  properties : StrMap
  registry : String → Except String Nat
  nodeInit : Nat → Configuration → Option String

/-- The zero value of types.Config, as produced by a Go empty struct literal. -/
def Config.empty : Config :=
  { properties := [], registry := fun _ => .error "", nodeInit := fun _ _ => none }

/-- Chain context: the fields of engine.RuleChainCtx that node.go reads
(chain-scoped variables, decrypted secrets, and the aspect list). -/
structure RuleChainCtx : Type where
  vars : StrMap
  decryptSecrets : StrMap
  aspects : AspectList

/-- Node wrapper: engine.RuleNodeCtx.  The embedded component instance is an
Option (a nil Go interface when absent), the chain context and definition
pointers are Options. -/
structure RuleNodeCtx : Type where
  node : Option Nat
  chainCtx : Option RuleChainCtx
  selfDefinition : Option RuleNode
  config : Config
  aspects : AspectList
  isInitNetResource : Bool

/-- The zero value of RuleNodeCtx, as the Go literal with address-of and empty braces. -/
def RuleNodeCtx.empty : RuleNodeCtx :=
  { node := none, chainCtx := none, selfDefinition := none,
    config := Config.empty, aspects := [], isInitNetResource := false }

/-- Key of the global-properties scope in the substitution environment
(types.Global). -/
def globalKey : String := "global"

/-- Key of the chain-variables scope (types.Vars). -/
def varsKey : String := "vars"

/-- Key of the decrypted-secrets entry (types.Secrets). -/
def secretsKey : String := "secrets"

/-- Configuration key types.NodeConfigurationKeyIsInitNetResource. -/
def isInitNetResourceKey : String := "isInitNetResource"

/-- Configuration key types.NodeConfigurationKeyChainCtx. -/
def chainCtxKey : String := "chainCtx"

/-- Configuration key types.NodeConfigurationKeySelfDefinition. -/
def selfDefinitionKey : String := "selfDefinition"

/-- The opening brace character, written by code point. -/
def lbraceChar : Char := Char.ofNat 123

/-- The closing brace character, written by code point. -/
def rbraceChar : Char := Char.ofNat 125

/-- Splits a placeholder body at its first dot into scope and key. -/
def splitScope (cs : List Char) : Option (String × String) :=
  let scope := cs.takeWhile (fun c => c ≠ '.')
  match cs.drop scope.length with
  | [] => none
  | _ :: rest => some (String.mk scope, String.mk rest)

/-- Modelled from the spec: utils/str.ExecuteTemplate is not under src.  The
spec describes it as a pure placeholder-resolution pass: a dollar-brace
placeholder scope.key is looked up in the layered environment (scope name to
string map); an unresolvable placeholder is left verbatim. -/
def lookupPlaceholder (env : List (String × StrMap)) (inner : List Char) : Option String :=
  match splitScope inner with
  | none => none
  | some sk => (lookupA sk.1 env).bind (fun m => lookupA sk.2 m)

/-- Modelled from the spec: character-level scan resolving dollar-brace
placeholders against the environment; fuel bounds the recursion and is always
supplied as more than the input length. -/
def resolveChars (env : List (String × StrMap)) : Nat → List Char → List Char
  | 0, cs => cs
  | _ + 1, [] => []
  | fuel + 1, c :: cs =>
    if c = '$' then
      match cs with
      | b :: rest =>
        if b = lbraceChar then
          let inner := rest.takeWhile (fun ch => ch ≠ rbraceChar)
          match rest.drop inner.length with
          | _ :: after =>
            match lookupPlaceholder env inner with
            | some v => v.data ++ resolveChars env fuel after
            | none => c :: b :: (inner ++ rbraceChar :: resolveChars env fuel after)
          | [] => c :: resolveChars env fuel cs
        else c :: resolveChars env fuel cs
      | [] => [c]
    else c :: resolveChars env fuel cs

/-- Modelled from the spec: str.ExecuteTemplate, resolving placeholders in a
single string against the environment. -/
def executeTemplate (s : String) (env : List (String × StrMap)) : String :=
  String.mk (resolveChars env (s.length + 1) s.data)

/-- The substitution environment built by processVariables: the global
properties under the global key and the chain variables under the vars key
(an absent chain context leaves the vars scope empty, as a nil Go map). -/
def substitutionEnv (config : Config) (chainCtx : Option RuleChainCtx) :
    List (String × StrMap) :=
  [(globalKey, config.properties),
   (varsKey, (chainCtx.map RuleChainCtx.vars).getD [])]

/-- The per-value transformation of processVariables: a string value has its
placeholders resolved against the environment, every other value is copied
unchanged. -/
def resolveValue (env : List (String × StrMap)) (v : CfgValue) : CfgValue :=
  match v with
  | CfgValue.str s => CfgValue.str (executeTemplate s env)
  | v => v

/-- processVariables from engine/node.go: rebuilds the configuration,
resolving placeholders in string values against the environment, copying
other values unchanged, then storing the chain variables and decrypted
secrets under their keys when a chain context is present (copyMap yields a
non-nil map exactly then).  The error result is always nil, as in the
source. -/
def processVariables (config : Config) (chainCtx : Option RuleChainCtx)
    (configuration : Configuration) : Configuration × Option String :=
  let env := substitutionEnv config chainCtx
  let result : Configuration := configuration.map (fun p => (p.1, resolveValue env p.2))
  let result := match chainCtx with
    | some cc => upsertA varsKey (CfgValue.strMap cc.vars) result
    | none => result
  let result := match chainCtx with
    | some cc => upsertA secretsKey (CfgValue.strMap cc.decryptSecrets) result
    | none => result
  (result, none)

/-- First error among the node-before-init aspect hooks, as the loop at the
top of initRuleNodeCtx. -/
def firstAspectError (aspects : AspectList) (d : RuleNode) : Option String :=
  aspects.findSome? (fun a => a d)

/-- The configuration handed to the component Init call by initRuleNodeCtx:
the processVariables result with the net-resource marker (when requested),
the chain context reference and the node definition stored under their
keys. -/
def nodeInitConfiguration (config : Config) (chainCtx : Option RuleChainCtx)
    (d : RuleNode) (isInitNetResource : Bool) : Configuration :=
  let base := (processVariables config chainCtx (d.configuration.getD [])).1
  let cfg1 := if isInitNetResource
    then upsertA isInitNetResourceKey (CfgValue.boolV true) base else base
  let cfg2 := upsertA chainCtxKey CfgValue.chainRef cfg1
  upsertA selfDefinitionKey (CfgValue.nodeRef d.id d.typ d.debugMode) cfg2

/-- initRuleNodeCtx from engine/node.go.  The Go pair (ctx pointer, error) is
embedded as an Except whose error side carries the partially populated (or
nil) wrapper returned alongside the error: nil wrapper on an aspect error, a
wrapper populated with everything but the component instance on a registry
construction error, the empty wrapper on a processVariables or component
Init error. -/
def initRuleNodeCtx (config : Config) (chainCtx : Option RuleChainCtx)
    (aspects : AspectList) (selfDefinition : RuleNode) (isInitNetResource : Bool) :
    Except (Option RuleNodeCtx × String) RuleNodeCtx :=
  match firstAspectError aspects selfDefinition with
  | some e => .error (none, e)
  | none =>
    match config.registry selfDefinition.typ with
    | .error e =>
      .error (some { node := none, chainCtx := chainCtx,
                     selfDefinition := some selfDefinition, config := config,
                     aspects := aspects, isInitNetResource := isInitNetResource }, e)
    | .ok comp =>
      let cfg0 := selfDefinition.configuration.getD []
      let pv := processVariables config chainCtx cfg0
      match pv.2 with
      | some e => .error (some RuleNodeCtx.empty, e)
      | none =>
        match config.nodeInit comp
            (nodeInitConfiguration config chainCtx selfDefinition isInitNetResource) with
        | some e => .error (some RuleNodeCtx.empty, e)
        | none =>
          .ok { node := some comp, chainCtx := chainCtx,
                selfDefinition := some selfDefinition, config := config,
                aspects := aspects, isInitNetResource := isInitNetResource }

/-- Aspect list passed by ReloadSelfFromDef to the re-initialization: nil when
the chain context is nil, the chain aspects otherwise. -/
def reloadAspects (rn : RuleNodeCtx) : AspectList :=
  match rn.chainCtx with
  | none => []
  | some cc => cc.aspects

/-- ReloadSelfFromDef from engine/node.go: re-runs initRuleNodeCtx on a fresh
wrapper; on success destroys the old instance and copies the new node,
config, aspects and definition over (the Copy method), otherwise returns the
error.  The Bool result records whether Destroy was called on the old
instance. -/
def RuleNodeCtx.ReloadSelfFromDef (rn : RuleNodeCtx) (d : RuleNode) :
    RuleNodeCtx × Option String × Bool :=
  match initRuleNodeCtx rn.config rn.chainCtx (reloadAspects rn) d rn.isInitNetResource with
  | .ok ctx =>
    ({ rn with node := ctx.node, config := ctx.config,
               aspects := ctx.aspects, selfDefinition := ctx.selfDefinition },
     none, true)
  | .error (_, e) => (rn, some e, false)

/-- Node identifier: Go types.RuleNodeId (the Type tag embedded as a Nat). -/
structure RuleNodeId : Type where
  id : String
  ntype : Nat
deriving DecidableEq

/-- ReloadChild from engine/node.go: always the labeled unsupported error. -/
def RuleNodeCtx.ReloadChild (_ : RuleNodeCtx) (_ : RuleNodeId) (_ : String) :
    Except String Unit :=
  .error "not support this func"

/-- GetNodeById from engine/node.go: always (nil, false); the Go signature
(types.NodeCtx, bool) offers no error channel. -/
def RuleNodeCtx.GetNodeById (_ : RuleNodeCtx) (_ : RuleNodeId) : Option Unit × Bool :=
  (none, false)

/-- Error component of a GetNodeById call: the Go return type carries no
error value, so this is nil for every wrapper and every argument. -/
def RuleNodeCtx.GetNodeByIdError (_ : RuleNodeCtx) (_ : RuleNodeId) : Option String :=
  none

/-- GetNodeId from engine/node.go (the NODE tag is 0). -/
def RuleNodeCtx.GetNodeIdOf (rn : RuleNodeCtx) : Option RuleNodeId :=
  rn.selfDefinition.map (fun d => { id := d.id, ntype := 0 })

/-- IsDebugMode from engine/node.go; reading through the definition pointer,
absent when the wrapper holds no definition. -/
def RuleNodeCtx.IsDebugMode (rn : RuleNodeCtx) : Option Bool :=
  rn.selfDefinition.map RuleNode.debugMode

/-- A stored route record of the REST endpoint: the fields of
endpoint.Router that the rest package reads and writes (GetId/SetId,
FromToString, GetParams/SetParams, IsDisable/Disable). -/
structure Router : Type where
  id : String
  path : String
  params : List String
  disabled : Bool
deriving DecidableEq

/-- State of one Rest endpoint instance: the route storage map (Option.none
is the nil map before first registration), the http router surface as the
list of registered method-path handles (Option.none is the nil router), the
started flag, and the SharedNode InstanceId (empty when the endpoint is its
own instance rather than a reference into the shared pool). -/
structure Rest : Type where
  routerStorage : Option (List (String × Router))
  router : Option (List (String × String))
  started : Bool
  instanceId : String
deriving DecidableEq

/-- Go strings.TrimSpace, as a character-list computation (whitespace
stripped from both ends). -/
def strTrim (s : String) : String :=
  String.mk (((s.data.dropWhile Char.isWhitespace).reverse.dropWhile Char.isWhitespace).reverse)

/-- Go strings.ToUpper, as a character-list computation. -/
def strToUpper (s : String) : String :=
  String.mk (s.data.map Char.toUpper)

/-- Identifier char class of the path-parameter pattern, one char of
[a-zA-Z0-9_]. -/
def isIdentTail (c : Char) : Bool :=
  (('a' ≤ c && c ≤ 'z') || ('A' ≤ c && c ≤ 'Z') || ('0' ≤ c && c ≤ '9') || c = '_')

/-- Leading identifier char of the path-parameter pattern, [a-zA-Z_]. -/
def isIdentHead (c : Char) : Bool :=
  (('a' ≤ c && c ≤ 'z') || ('A' ≤ c && c ≤ 'Z') || c = '_')

/-- Character scan of convertPathParams: a braced identifier becomes a
colon-form parameter, everything else is copied; fuel bounds the recursion
and is always supplied as more than the input length. -/
def convertChars : Nat → List Char → List Char
  | 0, cs => cs
  | _ + 1, [] => []
  | fuel + 1, c :: rest =>
    if c = lbraceChar then
      let ident := rest.takeWhile (fun ch => ch ≠ rbraceChar)
      match rest.drop ident.length with
      | _ :: after =>
        match ident with
        | [] => c :: convertChars fuel rest
        | h :: t =>
          if isIdentHead h && t.all isIdentTail then
            ':' :: (ident ++ convertChars fuel after)
          else c :: convertChars fuel rest
      | [] => c :: convertChars fuel rest
    else c :: convertChars fuel rest

/-- convertPathParams from the rest package: rewrites braced path parameters
into the colon format of httprouter. -/
def convertPathParams (path : String) : String :=
  String.mk (convertChars (path.length + 1) path.data)

/-- RouterKey from the rest package. -/
def Rest.RouterKey (method fromStr : String) : String :=
  method ++ ":" ++ fromStr

/-- addRouter from the rest package, for a single route (the Go variadic loop
body): upper-cases the method, initializes a nil storage map, trims the
route path, assigns the composite id when the route has none, records the
method as the route parameter list, stores the route in the storage map,
then either forwards to the shared instance (when InstanceId is set; the
shared call is an external oracle outcome) or registers the handler on the
local http router, creating the router when nil.  A panic inside
httprouter.Handle is the handleOutcome oracle error (recovered into an error
by the exported AddRouter); on a panic the surface keeps its previous
entries.  Returns the new state, the id reported by GetId after registration,
and the error. -/
def Rest.addRouter (handleOutcome : String → String → Option String)
    (sharedAdd : Option String) (method : String) (item : Router) (st : Rest) :
    Rest × String × Option String :=
  let m := strToUpper method
  let storage := st.routerStorage.getD []
  let path := strTrim item.path
  let item1 := if item.id = "" then { item with id := Rest.RouterKey m path } else item
  let item2 := { item1 with params := [m] }
  let st1 := { st with routerStorage := some (upsertA item2.id item2 storage) }
  if st.instanceId ≠ "" then
    (st1, item2.id, sharedAdd)
  else
    let st2 := if st1.router = none then { st1 with router := some [] } else st1
    let p2 := convertPathParams path
    match handleOutcome m p2 with
    | some e => (st2, item2.id, some e)
    | none => ({ st2 with router := some ((st2.router.getD []) ++ [(m, p2)]) }, item2.id, none)

/-- AddRouter from the rest package: rejects an empty parameter list and a
nil route, otherwise registers through addRouter with the first parameter as
the method. -/
def Rest.AddRouter (handleOutcome : String → String → Option String)
    (sharedAdd : Option String) (router : Option Router) (params : List String)
    (st : Rest) : Rest × String × Option String :=
  if params.isEmpty then (st, "", some "need to specify HTTP method")
  else
    match router with
    | none => (st, "", some "router can not nil")
    | some r => Rest.addRouter handleOutcome sharedAdd (strToUpper (params.headD "")) r st

/-- RemoveRouter from the rest package: trims the id; with an initialized
storage map, a present and enabled route is marked disabled in place (nil
result), anything else is the not-found error; with a nil storage map the
whole call returns nil. -/
def Rest.RemoveRouter (st : Rest) (routerId : String) : Rest × Option String :=
  let rid := strTrim routerId
  match st.routerStorage with
  | some s =>
    match lookupA rid s with
    | some r =>
      if r.disabled = false then
        ({ st with routerStorage := some (upsertA rid { r with disabled := true } s) }, none)
      else (st, some ("router: " ++ rid ++ " not found"))
    | none => (st, some ("router: " ++ rid ++ " not found"))
  | none => (st, none)

/-- Modelled from the spec: BaseEndpoint.HasRouter is not under src; per the
route-registration contract it reports whether the storage map holds the id. -/
def Rest.HasRouter (st : Rest) (id : String) : Bool :=
  match st.routerStorage with
  | some s => (lookupA id s).isSome
  | none => false

/-- Dispatch events of a Restart replay: an AddRouter attempt for a stored
route, and a logged per-route failure. -/
inductive ReplayEvent : Type where
  | attempt (id : String) (params : List String)
  | failed (id : String) (e : String)
deriving DecidableEq

/-- The replay loop of Restart over the previously enabled routes: default
the parameter list to GET when empty, skip ids already present again, replay
through AddRouter, log and continue on a per-route error. -/
def Rest.replayRoutes (handleOutcome : String → String → Option String)
    (sharedAdd : Option String) : List (String × Router) → Rest → Rest × List ReplayEvent
  | [], st => (st, [])
  | (_, r) :: rest, st =>
    let r1 := if r.params.isEmpty then { r with params := ["GET"] } else r
    if st.HasRouter r1.id then Rest.replayRoutes handleOutcome sharedAdd rest st
    else
      let step := Rest.AddRouter handleOutcome sharedAdd (some r1) r1.params st
      let next := Rest.replayRoutes handleOutcome sharedAdd rest step.1
      match step.2.2 with
      | none => (next.1, ReplayEvent.attempt r1.id r1.params :: next.2)
      | some e =>
        (next.1, ReplayEvent.attempt r1.id r1.params :: ReplayEvent.failed r1.id e :: next.2)

/-- Restart from the rest package.  The server shutdown changes no modelled
state.  A shared instance delegates to the pool instance (oracle outcome
sharedRestart).  Otherwise: a non-nil http router is rebuilt empty, the
enabled routes are collected, the storage map is reset and started cleared,
the server is started (oracle startOutcome; on failure that error is
returned with no replay), and every previously enabled route is replayed,
with per-route errors only logged.  The event list records the replay. -/
def Rest.Restart (startOutcome : Option String)
    (handleOutcome : String → String → Option String) (sharedAdd : Option String)
    (sharedRestart : Option String) (st : Rest) : Rest × Option String × List ReplayEvent :=
  if st.instanceId ≠ "" then (st, sharedRestart, [])
  else
    let st1 := if st.router.isSome then { st with router := some [] } else st
    let old := (st1.routerStorage.getD []).filter (fun p => p.2.disabled = false)
    let st2 := { st1 with routerStorage := some [], started := false }
    match startOutcome with
    | some e => (st2, some e, [])
    | none =>
      let st3 := { st2 with started := true }
      let run := Rest.replayRoutes handleOutcome sharedAdd old st3
      (run.1, none, run.2)

/-- The disabled-route check at the head of the rest request handler: a
disabled route answers http.NotFound before any processing. -/
def Rest.handlerAnswersNotFound (r : Router) : Bool :=
  r.disabled

/-- Projection of the replay log to the attempted (id, params) pairs. -/
def attemptsOf (evs : List ReplayEvent) : List (String × List String) :=
  evs.filterMap (fun e =>
    match e with
    | ReplayEvent.attempt i ps => some (i, ps)
    | ReplayEvent.failed _ _ => none)

/-- State of the MQTT client node relevant to client construction: the cached
client handle guarded by clientMutex (a nil pointer is Option.none). -/
structure MqttClientNode : Type where
  client : Option Nat
deriving DecidableEq

/-- initClient from mqtt_client_node.go.  The whole body runs under the
exclusive SharedNode Locker, so each invocation is one atomic step: the
cached client is re-checked and returned if present; otherwise
mqtt.NewClient runs under a context with a 4 second timeout (the construct
oracle, applied to the timeout in seconds) and the result is cached only on
success.  The Nat list logs the timeout of each constructor invocation. -/
def MqttClientNode.initClient (construct : Nat → Except String Nat)
    (st : MqttClientNode) : MqttClientNode × Except String Nat × List Nat :=
  match st.client with
  | some c => (st, .ok c, [])
  | none =>
    match construct 4 with
    | .ok c => ({ client := some c }, .ok c, [4])
    | .error e => (st, .error e, [4])

/-- Modelled from the spec: SharedNode.Get is not under src.  Per the spec it
returns the existing instance if built and otherwise runs the construction
function registered at Init, which for the MQTT client node is initClient. -/
def MqttClientNode.sharedGet (construct : Nat → Except String Nat)
    (st : MqttClientNode) : MqttClientNode × Except String Nat × List Nat :=
  match st.client with
  | some c => (st, .ok c, [])
  | none => MqttClientNode.initClient construct st

/-- A serialized trace of n Get calls for the same shared key: the exclusive
lock in initClient makes every concurrent schedule equivalent to some
sequential order of the atomic bodies, which this function runs, collecting
every result and the log of constructor invocations. -/
def runGets (construct : Nat → Except String Nat) :
    Nat → MqttClientNode → MqttClientNode × List (Except String Nat) × List Nat
  | 0, st => (st, [], [])
  | n + 1, st =>
    let step := MqttClientNode.sharedGet construct st
    let rest := runGets construct n step.1
    (rest.1, step.2.1 :: rest.2.1, step.2.2 ++ rest.2.2)

/-- A message travelling through a chain: Go types.RuleMsg restricted to the
fields the SSH and MQTT components touch. -/
structure RuleMsg : Type where
  data : String
  dataType : String
deriving DecidableEq

/-- A call into the rule context made by a component while processing one
message: TellSuccess or TellFailure with the forwarded message. -/
inductive TellEvent : Type where
  | success (msg : RuleMsg)
  | failure (msg : RuleMsg) (e : String)
deriving DecidableEq

/-- OnMsg from ssh_node.go, returning the list of context calls the body
makes in order.  Oracles: clientPresent is whether the ssh client pointer is
non-nil, render is the command template execution, newSession the session
constructor, runCmd the CombinedOutput call giving the combined output and
an optional execution error. -/
def SshNode.OnMsg (clientPresent : Bool) (cmd : String) (render : String → String)
    (newSession : Except String Nat) (runCmd : Nat → String → String × Option String)
    (msg : RuleMsg) : List TellEvent :=
  if clientPresent = false then [TellEvent.failure msg "ssh client not initialized"]
  else if cmd = "" then [TellEvent.failure msg "cmd can not empty"]
  else
    let rendered := render cmd
    match newSession with
    | .error e => [TellEvent.failure msg e]
    | .ok session =>
      let out := runCmd session rendered
      let msg2 := { msg with data := out.1, dataType := "TEXT" }
      match out.2 with
      | some e => [TellEvent.failure msg2 e]
      | none => [TellEvent.success msg2]

/-- OnMsg from mqtt_client_node.go, returning the list of context calls the
body makes in order.  Oracles: renderTopic is the topic template execution,
getClient the SharedNode.Get outcome, publish the broker publish call with
its optional error. -/
def MqttClientNode.OnMsg (renderTopic : String) (getClient : Except String Nat)
    (publish : Nat → String → String → Option String) (msg : RuleMsg) : List TellEvent :=
  match getClient with
  | .error e => [TellEvent.failure msg e]
  | .ok client =>
    match publish client renderTopic msg.data with
    | some e => [TellEvent.failure msg e]
    | none => [TellEvent.success msg]

/-- C1: node hot-reload is all-or-nothing.  When re-initializing a fresh
wrapper from the new definition fails, ReloadSelfFromDef returns that error,
the wrapper keeps its instance, configuration, definition and aspects
unchanged, and the old instance is not destroyed; when initialization
succeeds the old instance is destroyed and instance, configuration,
definition and aspects are swapped for the new ones (chain context and
net-resource flag kept). -/
theorem c1_reload_all_or_nothing (rn : RuleNodeCtx) (d : RuleNode) :
    match initRuleNodeCtx rn.config rn.chainCtx (reloadAspects rn) d rn.isInitNetResource with
    | .error (_, e) => rn.ReloadSelfFromDef d = (rn, some e, false)
    | .ok ctx =>
        rn.ReloadSelfFromDef d =
          ({ node := ctx.node, chainCtx := rn.chainCtx, selfDefinition := ctx.selfDefinition,
             config := ctx.config, aspects := ctx.aspects,
             isInitNetResource := rn.isInitNetResource }, none, true) := by
  cases h : initRuleNodeCtx rn.config rn.chainCtx (reloadAspects rn) d rn.isInitNetResource with
  | ok ctx => simp [RuleNodeCtx.ReloadSelfFromDef, h]
  | error p =>
    obtain ⟨c, e⟩ := p
    simp [RuleNodeCtx.ReloadSelfFromDef, h]

/-- Helper for C2: once the client is cached, every further serialized Get
returns the same instance and never invokes the constructor. -/
theorem runGets_built (construct : Nat → Except String Nat) (n c : Nat) :
    runGets construct n { client := some c } =
      ({ client := some c }, List.replicate n (Except.ok c), []) := by
  induction n with
  | zero => simp [runGets]
  | succ m ih => simp [runGets, MqttClientNode.sharedGet, ih, List.replicate]

/-- C2: for one shared key, any number of Get calls (serialized by the
exclusive lock of initClient) invoke the constructor exactly once when it
succeeds, every caller receives the same instance, the constructor always
runs under the bounded 4 second timeout, a failed construction stores
nothing, and an already built instance is returned without construction. -/
theorem c2_shared_get_single_construction (n c c2 : Nat) (e : String)
    (f : Nat → Except String Nat) :
    (runGets (fun _ => Except.ok c) n { client := none }).2.1 =
        List.replicate n (Except.ok c) ∧
    (runGets (fun _ => Except.ok c) n { client := none }).2.2 =
        (match n with | 0 => [] | _ + 1 => [4]) ∧
    MqttClientNode.sharedGet (fun _ => Except.error e) { client := none } =
        ({ client := none }, Except.error e, [4]) ∧
    MqttClientNode.sharedGet f { client := some c2 } =
        ({ client := some c2 }, Except.ok c2, []) := by
  refine ⟨?_, ?_, rfl, rfl⟩ <;>
    cases n <;>
      simp [runGets, MqttClientNode.sharedGet, MqttClientNode.initClient,
        runGets_built, List.replicate]

/-- C7: every OnMsg invocation of the SSH node and of the MQTT client node
calls exactly one of TellSuccess / TellFailure before returning, for every
client state, configuration, oracle outcome and message. -/
theorem c7_onmsg_exactly_one_tell (clientPresent : Bool) (cmd : String)
    (render : String → String) (newSession : Except String Nat)
    (runCmd : Nat → String → String × Option String) (renderTopic : String)
    (getClient : Except String Nat) (publish : Nat → String → String → Option String)
    (msg msg2 : RuleMsg) :
    (SshNode.OnMsg clientPresent cmd render newSession runCmd msg).length = 1 ∧
    (MqttClientNode.OnMsg renderTopic getClient publish msg2).length = 1 := by
  constructor
  · unfold SshNode.OnMsg
    cases clientPresent
    · simp
    · by_cases hc : cmd = "" <;> simp [hc]
      cases newSession with
      | error e => simp
      | ok s =>
        cases h : (runCmd s (render cmd)).2 <;> simp [h]
  · unfold MqttClientNode.OnMsg
    cases getClient with
    | error e => simp
    | ok client => cases h : publish client renderTopic msg2.data <;> simp [h]

/-- C8 counterexample: GetNodeById on a leaf node wrapper returns (nil,
false); its Go signature carries no error value at all, so it cannot fail
with a clearly labeled unsupported error as the claim states. -/
theorem c8_get_node_by_id_no_error :
    RuleNodeCtx.GetNodeById RuleNodeCtx.empty { id := "n1", ntype := 0 } = (none, false) ∧
    RuleNodeCtx.GetNodeByIdError RuleNodeCtx.empty { id := "n1", ntype := 0 } = none :=
  ⟨rfl, rfl⟩

/-- C8 amended: for every leaf node wrapper and every argument, ReloadChild
fails with the clearly labeled unsupported error, while GetNodeById signals
lack of support by returning (nil, false) without an error value. -/
theorem c8_sub_chain_delegation_unsupported (rn : RuleNodeCtx) (nid : RuleNodeId)
    (bytes : String) :
    rn.ReloadChild nid bytes = Except.error "not support this func" ∧
    rn.GetNodeById nid = (none, false) :=
  ⟨rfl, rfl⟩

/-- C10: with an uninitialized (nil) route storage map, RemoveRouter returns
nil for every route id, reporting success for removal from an endpoint that
never registered a route. -/
theorem c10_remove_router_nil_storage (st : Rest) (rid : String)
    (h : st.routerStorage = none) :
    st.RemoveRouter rid = (st, none) := by
  simp [Rest.RemoveRouter, h]

/-- Witness for C10 at a concrete empty endpoint state. -/
theorem c10_remove_router_nil_storage_witness :
    Rest.RemoveRouter { routerStorage := none, router := none, started := false,
                        instanceId := "" } "missing" =
      ({ routerStorage := none, router := none, started := false, instanceId := "" }, none) :=
  c10_remove_router_nil_storage _ "missing" rfl

/-- The error part of processVariables is nil on every input, as the single
return statement of the source. -/
theorem processVariables_snd (config : Config) (cc : Option RuleChainCtx)
    (cfg : Configuration) : (processVariables config cc cfg).2 = none := rfl

/-- A concrete definition for exercising node initialization. -/
def c5Def : RuleNode := { id := "n1", typ := "t1", debugMode := true, configuration := some [] }

/-- A concrete engine config whose registry succeeds and whose component Init
fails. -/
def c5Config : Config :=
  { properties := [], registry := fun _ => Except.ok 7, nodeInit := fun _ _ => some "init boom" }

/-- C5 counterexample: when the registry constructs the component but the
component Init itself fails, initRuleNodeCtx returns the empty wrapper (no
chain context, no definition, so neither identity nor debug flag is
reportable) together with the error — not a wrapper populated with chain
context and definition as the claim asserts for failures of Init. -/
theorem c5_init_error_returns_empty_wrapper :
    initRuleNodeCtx c5Config none [] c5Def false =
      Except.error (some RuleNodeCtx.empty, "init boom") ∧
    RuleNodeCtx.empty.selfDefinition = none ∧
    RuleNodeCtx.empty.chainCtx = none :=
  ⟨rfl, rfl, rfl⟩

/-- C5 amended: provided no before-init aspect rejects the node, a registry
construction failure returns that error together with a wrapper populated
with the chain context, definition, config and aspects but no instance, on
which the node id and debug flag remain reportable; a failure of the
component Init instead returns the empty wrapper with the error; on success
the wrapper holds the live instance. -/
theorem c5_construction_failure_keeps_identity (config : Config)
    (cc : Option RuleChainCtx) (aspects : AspectList) (d : RuleNode) (ini : Bool)
    (hAsp : firstAspectError aspects d = none) :
    match config.registry d.typ with
    | .error re =>
        initRuleNodeCtx config cc aspects d ini =
          Except.error (some { node := none, chainCtx := cc, selfDefinition := some d,
                               config := config, aspects := aspects,
                               isInitNetResource := ini }, re) ∧
        RuleNodeCtx.GetNodeIdOf
            { node := none, chainCtx := cc, selfDefinition := some d, config := config,
              aspects := aspects, isInitNetResource := ini } =
          some { id := d.id, ntype := 0 } ∧
        RuleNodeCtx.IsDebugMode
            { node := none, chainCtx := cc, selfDefinition := some d, config := config,
              aspects := aspects, isInitNetResource := ini } =
          some d.debugMode
    | .ok comp =>
        match config.nodeInit comp (nodeInitConfiguration config cc d ini) with
        | some e =>
            initRuleNodeCtx config cc aspects d ini =
              Except.error (some RuleNodeCtx.empty, e)
        | none =>
            initRuleNodeCtx config cc aspects d ini =
              Except.ok { node := some comp, chainCtx := cc, selfDefinition := some d,
                          config := config, aspects := aspects,
                          isInitNetResource := ini } := by
  cases hr : config.registry d.typ with
  | error re =>
    simp [initRuleNodeCtx, hAsp, hr, RuleNodeCtx.GetNodeIdOf, RuleNodeCtx.IsDebugMode]
  | ok comp =>
    cases hi : config.nodeInit comp (nodeInitConfiguration config cc d ini) with
    | none => simp [initRuleNodeCtx, hAsp, hr, processVariables_snd, hi]
    | some e => simp [initRuleNodeCtx, hAsp, hr, processVariables_snd, hi]

/-- A concrete engine config whose registry rejects every type name. -/
def c5FailConfig : Config :=
  { properties := [], registry := fun _ => Except.error "no such type",
    nodeInit := fun _ _ => none }

/-- Witness for C5 at a concrete registry-failure input. -/
theorem c5_construction_failure_keeps_identity_witness :
    initRuleNodeCtx c5FailConfig none [] c5Def false =
      Except.error (some { node := none, chainCtx := none, selfDefinition := some c5Def,
                           config := c5FailConfig, aspects := [],
                           isInitNetResource := false }, "no such type") ∧
    RuleNodeCtx.GetNodeIdOf
        { node := none, chainCtx := none, selfDefinition := some c5Def,
          config := c5FailConfig, aspects := [], isInitNetResource := false } =
      some { id := "n1", ntype := 0 } ∧
    RuleNodeCtx.IsDebugMode
        { node := none, chainCtx := none, selfDefinition := some c5Def,
          config := c5FailConfig, aspects := [], isInitNetResource := false } =
      some true :=
  c5_construction_failure_keeps_identity c5FailConfig none [] c5Def false rfl

/-- A concrete chain context with one decrypted secret and no variables. -/
def c6Chain : RuleChainCtx := { vars := [], decryptSecrets := [("x", "v")], aspects := [] }

/-- A configuration with one string entry holding a secrets placeholder. -/
def c6Cfg : Configuration := [("k", CfgValue.str "$\x7bsecrets.x\x7d")]

/-- The environment the claim describes: global properties, chain variables
and chain decrypted secrets. -/
def c6ClaimEnv : List (String × StrMap) :=
  [(globalKey, []), (varsKey, []), (secretsKey, [("x", "v")])]

/-- C6 counterexample: processVariables leaves a secrets placeholder
unresolved, although resolving it against an environment that (as the claim
asserts) also contains the chain decrypted secrets would produce the secret
value. -/
theorem c6_secrets_not_in_substitution_env :
    lookupA "k" (processVariables Config.empty (some c6Chain) c6Cfg).1 =
      some (CfgValue.str "$\x7bsecrets.x\x7d") ∧
    executeTemplate "$\x7bsecrets.x\x7d" c6ClaimEnv = "v" :=
  ⟨rfl, rfl⟩

/-- C6 amended: variable substitution resolves placeholders of every
string-valued entry against an environment holding only the global
properties and the chain-scoped variables (the decrypted secrets are not
part of the substitution environment; they are only attached to the result
under the secrets key), and non-string entries are copied unchanged; the
resolution is a pure function of an immutable environment snapshot.  Stated
for every key other than the reserved vars and secrets keys, which the pass
overwrites after resolution. -/
theorem c6_substitution_scopes (config : Config) (cc : Option RuleChainCtx)
    (cfg : Configuration) (k : String) (h1 : k ≠ varsKey) (h2 : k ≠ secretsKey) :
    match lookupA k cfg with
    | some (CfgValue.str s) =>
        lookupA k (processVariables config cc cfg).1 =
          some (CfgValue.str (executeTemplate s (substitutionEnv config cc)))
    | some v => lookupA k (processVariables config cc cfg).1 = some v
    | none => lookupA k (processVariables config cc cfg).1 = none := by
  have base : lookupA k (processVariables config cc cfg).1 =
      (lookupA k cfg).map (resolveValue (substitutionEnv config cc)) := by
    cases cc with
    | none => simp [processVariables, lookupA_map_value]
    | some c =>
      simp only [processVariables]
      rw [lookupA_upsertA, if_neg h2, lookupA_upsertA, if_neg h1, lookupA_map_value]
  cases hl : lookupA k cfg with
  | none => simp [base, hl]
  | some v => cases v <;> simp [base, hl, resolveValue]

/-- Witness for C6 at a concrete global-properties placeholder. -/
theorem c6_substitution_scopes_witness :
    lookupA "k"
        (processVariables
          { properties := [("a", "A")], registry := fun _ => Except.error "",
            nodeInit := fun _ _ => none }
          none [("k", CfgValue.str "$\x7bglobal.a\x7d")]).1 =
      some (CfgValue.str
        (executeTemplate "$\x7bglobal.a\x7d"
          (substitutionEnv
            { properties := [("a", "A")], registry := fun _ => Except.error "",
              nodeInit := fun _ _ => none }
            none))) :=
  c6_substitution_scopes
    { properties := [("a", "A")], registry := fun _ => Except.error "",
      nodeInit := fun _ _ => none }
    none [("k", CfgValue.str "$\x7bglobal.a\x7d")] "k" (by decide) (by decide)

/-- Storing under a key leaves it with exactly one entry in the map, given
the map invariant that keys are distinct. -/
theorem count_keys_upsertA {α : Type} (k : String) (v : α) (s : List (String × α))
    (h : (s.map Prod.fst).Nodup) :
    ((upsertA k v s).map Prod.fst).count k = 1 := by
  rw [keys_upsertA]
  by_cases hs : (lookupA k s).isSome
  · rw [if_pos hs]
    exact List.count_eq_one_of_mem h ((lookupA_isSome_iff_mem k s).1 hs)
  · rw [if_neg hs]
    have hm : k ∉ s.map Prod.fst := fun hmem => hs ((lookupA_isSome_iff_mem k s).2 hmem)
    rw [List.count_append, List.count_eq_zero_of_not_mem hm]
    simp

/-- A concrete stored route, enabled. -/
def c4Router : Router := { id := "a", path := "/p", params := ["GET"], disabled := false }

/-- A concrete endpoint state holding one enabled route. -/
def c4St : Rest :=
  { routerStorage := some [("a", c4Router)], router := none, started := false,
    instanceId := "" }

/-- An endpoint state whose route storage was never initialized. -/
def c4NilSt : Rest :=
  { routerStorage := none, router := none, started := false, instanceId := "" }

/-- C4 counterexample: on an endpoint whose route storage is uninitialized,
the id is absent from the storage, yet RemoveRouter returns nil rather than
the not-found error the claim requires for every absent id. -/
theorem c4_absent_id_without_error :
    Rest.RemoveRouter c4NilSt "ghost" = (c4NilSt, none) := rfl

/-- C4 amended: provided the route storage map has been initialized,
RemoveRouter never deletes the entry: for a trimmed id present and enabled
it marks the stored route disabled in place and returns nil, the entry stays
in storage (same length, lookup finds it disabled) and the request handler
then answers not-found for it; for a trimmed id absent or already disabled
it returns the not-found error and changes nothing. -/
theorem c4_remove_marks_disabled (st : Rest) (s : List (String × Router)) (rid : String)
    (hInit : st.routerStorage = some s) :
    match lookupA (strTrim rid) s with
    | some r =>
        if r.disabled = false then
          st.RemoveRouter rid =
            ({ st with
                routerStorage := some (upsertA (strTrim rid) { r with disabled := true } s) },
             none) ∧
          lookupA (strTrim rid) (upsertA (strTrim rid) { r with disabled := true } s) =
            some { r with disabled := true } ∧
          (upsertA (strTrim rid) { r with disabled := true } s).length = s.length ∧
          Rest.handlerAnswersNotFound { r with disabled := true } = true
        else st.RemoveRouter rid = (st, some ("router: " ++ strTrim rid ++ " not found"))
    | none =>
        st.RemoveRouter rid = (st, some ("router: " ++ strTrim rid ++ " not found")) := by
  cases hl : lookupA (strTrim rid) s with
  | none => simp [Rest.RemoveRouter, hInit, hl]
  | some r =>
    dsimp only
    by_cases hd : r.disabled = false
    · rw [if_pos hd]
      refine ⟨?_, ?_, ?_, ?_⟩
      · simp [Rest.RemoveRouter, hInit, hl, hd]
      · rw [lookupA_upsertA, if_pos rfl]
      · rw [length_upsertA, if_pos (by simp [hl])]
      · rfl
    · rw [if_neg hd]
      simp [Rest.RemoveRouter, hInit, hl, hd]

/-- Witness for C4 at a concrete enabled route. -/
theorem c4_remove_marks_disabled_witness :
    Rest.RemoveRouter c4St "a" =
      ({ c4St with routerStorage := some [("a", { c4Router with disabled := true })] },
       none) ∧
    lookupA "a" [("a", { c4Router with disabled := true })] =
      some { c4Router with disabled := true } ∧
    ([("a", ({ c4Router with disabled := true } : Router))]).length = 1 ∧
    Rest.handlerAnswersNotFound { c4Router with disabled := true } = true :=
  c4_remove_marks_disabled c4St [("a", c4Router)] "a" rfl

/-- The id under which addRouter stores a route: the composite method:path
id (method upper-cased, path trimmed) when the route carries none, the
caller-supplied id otherwise. -/
def assignedRouterId (method : String) (r : Router) : String :=
  if r.id = "" then Rest.RouterKey (strToUpper method) (strTrim r.path) else r.id

/-- C9: addRouter assigns the composite id upper-method colon trimmed-path
exactly when the route has no id yet, keeps a caller-supplied id unchanged,
stores the route under that id (replacing any stored entry with the same id
rather than adding a duplicate: the key occurs once afterwards and the map
only grows when the id was absent). -/
theorem c9_add_router_composite_id (ho : String → String → Option String)
    (sa : Option String) (method : String) (r : Router) (st : Rest)
    (hInst : st.instanceId = "")
    (hNodup : ((st.routerStorage.getD []).map Prod.fst).Nodup) :
    (Rest.addRouter ho sa method r st).2.1 = assignedRouterId method r ∧
    (Rest.addRouter ho sa method r st).1.routerStorage =
      some (upsertA (assignedRouterId method r)
        { r with id := assignedRouterId method r, params := [strToUpper method] }
        (st.routerStorage.getD [])) ∧
    lookupA (assignedRouterId method r)
        ((Rest.addRouter ho sa method r st).1.routerStorage.getD []) =
      some { r with id := assignedRouterId method r, params := [strToUpper method] } ∧
    (((Rest.addRouter ho sa method r st).1.routerStorage.getD []).map Prod.fst).count
        (assignedRouterId method r) = 1 ∧
    ((Rest.addRouter ho sa method r st).1.routerStorage.getD []).length =
      (if (lookupA (assignedRouterId method r) (st.routerStorage.getD [])).isSome
       then (st.routerStorage.getD []).length
       else (st.routerStorage.getD []).length + 1) := by
  have hstorage : (Rest.addRouter ho sa method r st).1.routerStorage =
      some (upsertA (assignedRouterId method r)
        { r with id := assignedRouterId method r, params := [strToUpper method] }
        (st.routerStorage.getD [])) ∧
      (Rest.addRouter ho sa method r st).2.1 = assignedRouterId method r := by
    by_cases hid : r.id = ""
    · simp only [Rest.addRouter, assignedRouterId, hid, if_pos rfl, hInst, ne_eq,
        not_true_eq_false, if_false]
      cases hho : ho (strToUpper method) (convertPathParams (strTrim r.path)) <;>
        split <;> (try split) <;> simp_all
    · simp only [Rest.addRouter, assignedRouterId, hid, if_neg hid, hInst, ne_eq,
        not_true_eq_false, if_false]
      cases hho : ho (strToUpper method) (convertPathParams (strTrim r.path)) <;>
        split <;> (try split) <;> simp_all
  refine ⟨hstorage.2, hstorage.1, ?_, ?_, ?_⟩
  · rw [hstorage.1]
    simp only [Option.getD_some]
    rw [lookupA_upsertA, if_pos rfl]
  · rw [hstorage.1]
    simp only [Option.getD_some]
    exact count_keys_upsertA _ _ _ hNodup
  · rw [hstorage.1]
    simp only [Option.getD_some]
    exact length_upsertA _ _ _

/-- Witness for C9: registering a route without id on a fresh endpoint. -/
theorem c9_add_router_composite_id_witness :
    (Rest.addRouter (fun _ _ => none) none "get"
        { id := "", path := " /p ", params := [], disabled := false }
        { routerStorage := some [], router := none, started := false,
          instanceId := "" }).2.1 = "GET:/p" ∧
    (Rest.addRouter (fun _ _ => none) none "get"
        { id := "", path := " /p ", params := [], disabled := false }
        { routerStorage := some [], router := none, started := false,
          instanceId := "" }).1.routerStorage =
      some [("GET:/p", { id := "GET:/p", path := " /p ", params := ["GET"],
                         disabled := false })] ∧
    lookupA "GET:/p"
        [("GET:/p", ({ id := "GET:/p", path := " /p ", params := ["GET"],
                       disabled := false } : Router))] =
      some { id := "GET:/p", path := " /p ", params := ["GET"], disabled := false } ∧
    (([("GET:/p", ({ id := "GET:/p", path := " /p ", params := ["GET"],
                     disabled := false } : Router))]).map Prod.fst).count "GET:/p" = 1 ∧
    ([("GET:/p", ({ id := "GET:/p", path := " /p ", params := ["GET"],
                    disabled := false } : Router))]).length = 1 :=
  c9_add_router_composite_id (fun _ _ => none) none "get"
    { id := "", path := " /p ", params := [], disabled := false }
    { routerStorage := some [], router := none, started := false, instanceId := "" }
    rfl (by simp)

/-- HasRouter seen through the nil-map default. -/
theorem HasRouter_getD (st : Rest) (qid : String) :
    st.HasRouter qid = (lookupA qid (st.routerStorage.getD [])).isSome := by
  cases h : st.routerStorage <;> simp [Rest.HasRouter, h, lookupA]

/-- Replaying one route through AddRouter in a non-shared endpoint stores it
under its own id and preserves the instance id, whatever the surface
registration outcome. -/
theorem AddRouter_replay_storage (ho : String → String → Option String)
    (sa : Option String) (r : Router) (params : List String) (st : Rest)
    (hInst : st.instanceId = "") (hid : r.id ≠ "") (hp : params ≠ []) :
    (Rest.AddRouter ho sa (some r) params st).1.routerStorage =
      some (upsertA r.id
        { r with params := [strToUpper (strToUpper (params.headD ""))] }
        (st.routerStorage.getD [])) ∧
    (Rest.AddRouter ho sa (some r) params st).1.instanceId = "" := by
  cases params with
  | nil => exact absurd rfl hp
  | cons p ps =>
    simp only [Rest.AddRouter, List.isEmpty_cons, Bool.false_eq_true, if_false,
      List.headD_cons, Rest.addRouter, if_neg hid, hInst, ne_eq, not_true_eq_false,
      if_false]
    cases hho : ho (strToUpper (strToUpper p)) (convertPathParams (strTrim r.path)) <;>
      split <;> (try split) <;> simp_all

/-- Replaying one route does not make any other id appear or disappear from
the storage map. -/
theorem HasRouter_after_replay (ho : String → String → Option String)
    (sa : Option String) (r : Router) (params : List String) (st : Rest) (qid : String)
    (hInst : st.instanceId = "") (hid : r.id ≠ "") (hp : params ≠ [])
    (hq : qid ≠ r.id) :
    (Rest.AddRouter ho sa (some r) params st).1.HasRouter qid = st.HasRouter qid := by
  rw [HasRouter_getD, (AddRouter_replay_storage ho sa r params st hInst hid hp).1]
  simp only [Option.getD_some]
  rw [lookupA_upsertA, if_neg hq, HasRouter_getD]

/-- The replay loop attempts exactly the given routes in order, each with its
parameter list defaulted to GET when empty, regardless of per-route
failures. -/
theorem replayRoutes_attempts (ho : String → String → Option String)
    (sa : Option String) (routes : List (String × Router)) (st : Rest)
    (hInst : st.instanceId = "")
    (hAbsent : ∀ p ∈ routes, st.HasRouter p.2.id = false)
    (hNodup : (routes.map (fun p => p.2.id)).Nodup)
    (hIds : ∀ p ∈ routes, p.2.id ≠ "") :
    attemptsOf (Rest.replayRoutes ho sa routes st).2 =
      routes.map (fun p => (p.2.id, if p.2.params.isEmpty then ["GET"] else p.2.params)) := by
  induction routes generalizing st with
  | nil => simp [Rest.replayRoutes, attemptsOf]
  | cons q rest ih =>
    obtain ⟨k, r⟩ := q
    have hidr : r.id ≠ "" := hIds (k, r) (List.mem_cons_self _ _)
    have habs : st.HasRouter r.id = false := hAbsent (k, r) (List.mem_cons_self _ _)
    have hNodup2 : (r.id :: rest.map (fun p => p.2.id)).Nodup := by
      simpa only [List.map_cons] using hNodup
    have hnd := List.nodup_cons.1 hNodup2
    set r1 : Router := if r.params.isEmpty then { r with params := ["GET"] } else r with hr1
    have hr1id : r1.id = r.id := by
      rw [hr1]; by_cases hpe : r.params.isEmpty <;> simp [hpe]
    have hr1p : r1.params ≠ [] := by
      rw [hr1]; by_cases hpe : r.params.isEmpty <;> simp [hpe]
      intro hcon; exact hpe (by simp [hcon])
    have hstep := AddRouter_replay_storage ho sa r1 r1.params st hInst (hr1id ▸ hidr) hr1p
    have hrest : attemptsOf
        (Rest.replayRoutes ho sa rest (Rest.AddRouter ho sa (some r1) r1.params st).1).2 =
        rest.map (fun p => (p.2.id, if p.2.params.isEmpty then ["GET"] else p.2.params)) := by
      refine ih _ hstep.2 ?_ hnd.2 (fun p hp => hIds p (List.mem_cons_of_mem _ hp))
      intro p hp
      have hne : p.2.id ≠ r1.id := by
        rw [hr1id]
        intro hcon
        exact hnd.1 (hcon ▸ List.mem_map_of_mem (fun p => p.2.id) hp)
      rw [HasRouter_after_replay ho sa r1 r1.params st p.2.id hInst (hr1id ▸ hidr) hr1p hne]
      exact hAbsent p (List.mem_cons_of_mem _ hp)
    have hskip : st.HasRouter r1.id = false := hr1id ▸ habs
    simp only [Rest.replayRoutes, ← hr1, hskip, Bool.false_eq_true, if_false]
    cases herr : (Rest.AddRouter ho sa (some r1) r1.params st).2.2 with
    | none =>
      simp only [herr, attemptsOf, List.filterMap_cons, List.map_cons]
      rw [← attemptsOf, hrest, hr1id]
      rw [hr1]
      by_cases hpe : r.params.isEmpty <;> simp [hpe]
    | some e =>
      simp only [herr, attemptsOf, List.filterMap_cons, List.map_cons]
      rw [← attemptsOf, hrest, hr1id]
      rw [hr1]
      by_cases hpe : r.params.isEmpty <;> simp [hpe]

/-- C3: with a non-shared endpoint, Restart returns an error exactly when the
dispatch surface itself cannot be restarted (the start outcome), and on a
successful start it replays exactly the previously enabled routes in storage
order (disabled routes are dropped), substituting the generic GET trigger
method for any route whose recorded parameter list is empty; a per-route
replay error is logged and skipped without failing the restart (the attempts
and the nil return do not depend on the per-route outcomes). -/
theorem c3_restart_replays_enabled (so : Option String)
    (ho : String → String → Option String) (sa sr : Option String) (st : Rest)
    (hInst : st.instanceId = "")
    (hNodup : (((st.routerStorage.getD []).filter
        (fun p => p.2.disabled = false)).map (fun p => p.2.id)).Nodup)
    (hIds : ∀ p ∈ (st.routerStorage.getD []).filter (fun p => p.2.disabled = false),
        p.2.id ≠ "") :
    (Rest.Restart so ho sa sr st).2.1 = so ∧
    attemptsOf (Rest.Restart so ho sa sr st).2.2 =
      (match so with
       | some _ => []
       | none =>
         ((st.routerStorage.getD []).filter (fun p => p.2.disabled = false)).map
           (fun p => (p.2.id, if p.2.params.isEmpty then ["GET"] else p.2.params))) := by
  have key : ∀ (st3 : Rest), st3.instanceId = "" → st3.routerStorage = some [] →
      attemptsOf (Rest.replayRoutes ho sa
        ((st.routerStorage.getD []).filter (fun p => p.2.disabled = false)) st3).2 =
      ((st.routerStorage.getD []).filter (fun p => p.2.disabled = false)).map
        (fun p => (p.2.id, if p.2.params.isEmpty then ["GET"] else p.2.params)) := by
    intro st3 h1 h2
    exact replayRoutes_attempts ho sa _ st3 h1
      (fun p _ => by rw [HasRouter_getD, h2]; simp [lookupA]) hNodup hIds
  constructor
  · simp only [Rest.Restart, hInst, ne_eq, not_true_eq_false, if_false]
    cases so <;> by_cases hr : st.router.isSome <;> simp [hr]
  · simp only [Rest.Restart, hInst, ne_eq, not_true_eq_false, if_false]
    cases so with
    | some e => by_cases hr : st.router.isSome <;> simp [hr, attemptsOf]
    | none =>
      by_cases hr : st.router.isSome
      · simp only [hr, if_true]
        exact key _ rfl rfl
      · simp only [hr, Bool.false_eq_true, if_false, hInst]
        exact key _ rfl rfl

/-- A concrete enabled route with an empty recorded parameter list. -/
def c3Router1 : Router := { id := "id1", path := "/a", params := [], disabled := false }

/-- A concrete disabled route. -/
def c3Router2 : Router := { id := "id2", path := "/b", params := ["POST"], disabled := true }

/-- A concrete started endpoint holding one enabled and one disabled route. -/
def c3St : Rest :=
  { routerStorage := some [("id1", c3Router1), ("id2", c3Router2)],
    router := some [], started := true, instanceId := "" }

/-- Witness for C3: restarting the concrete endpoint replays only the enabled
route, with GET substituted for its empty parameter list, and returns nil. -/
theorem c3_restart_replays_enabled_witness :
    (Rest.Restart none (fun _ _ => none) none none c3St).2.1 = none ∧
    attemptsOf (Rest.Restart none (fun _ _ => none) none none c3St).2.2 =
      [("id1", ["GET"])] :=
  c3_restart_replays_enabled none (fun _ _ => none) none none c3St rfl
    (by decide) (by decide)

end RuleGo
